import Mathlib

/-!
Verification development for the `rss-ai-backend` Flask service (`app.py`).

The Python source is shallowly embedded below.  External effects are
abstracted as an explicit environment (`Env`) of oracles:

* `getText`    models `BeautifulSoup(html, "html.parser").get_text(separator=" ")`;
  `none` models the (defensively handled) case where the parse raises.
* `httpGet`    models `requests.get(url, ...)`: `none` is a raised network
  exception, `some (status, body)` a completed response.
* `parseFeed`  models `feedparser.parse(feed_url)`: `none` is a raised
  exception, `some entries` the parsed entry list (possibly empty).
* `gen`        models `client.models.generate_content(...)`: `.ok t` is the
  response text (already folded through `getattr(resp, "text", "") or ""`),
  `.error e` a raised exception with message `e`.

Pure helpers (`clean_text_from_html`, `first_sentence`, `ai_summary`,
`ai_digest`, the `/summarize` collection loop and the endpoint handlers) are
translated function by function from `app.py`.
-/

/-! ## Python string primitives -/

/-- The whitespace characters recognised by Python's `str.strip` and by the
regex `\s` on the inputs this development manipulates: the six ASCII
whitespace characters plus the no-break space. -/
def isPySpace (c : Char) : Bool :=
  c = ' ' || c = '\t' || c = '\n' || c = '\r' || c = '\x0b' || c = '\x0c' || c = '\xa0'

/-- One pass of `re.sub(r"\s+", " ", ·)` over the character list: every
maximal run of whitespace is replaced by a single space.  The flag records
whether the previous character was part of a whitespace run. -/
def collapseGo : Bool → List Char → List Char
  | _, [] => []
  | inWs, c :: rest =>
    if isPySpace c then
      if inWs then collapseGo true rest else ' ' :: collapseGo true rest
    else c :: collapseGo false rest

/-- Python `re.sub(r"\s+", " ", s)` (the module-level `WHITESPACE_RE`). -/
def collapseWs (s : String) : String := ⟨collapseGo false s.data⟩

/-- Characters dropped from both ends by Python's `str.strip()`. -/
def stripChars (l : List Char) : List Char :=
  ((l.dropWhile isPySpace).reverse.dropWhile isPySpace).reverse

/-- Python `s.strip()`. -/
def pyStrip (s : String) : String := ⟨stripChars s.data⟩

/-- Characters dropped from the right end by Python's `str.rstrip()`. -/
def rstripChars (l : List Char) : List Char :=
  (l.reverse.dropWhile isPySpace).reverse

/-- Python `s.rstrip()`. -/
def pyRStrip (s : String) : String := ⟨rstripChars s.data⟩

/-- Python `s.replace("\n", " ")` (single-character replacement is a
character-wise map). -/
def replaceNl (s : String) : String :=
  ⟨s.data.map (fun c => if c = '\n' then ' ' else c)⟩

/-- ASCII case folding of one character, as `str.lower()` acts on the ASCII
range (the only range exercised by `app.py`'s `"[model error:"` check). -/
def lowerChar (c : Char) : Char :=
  if 'A' ≤ c ∧ c ≤ 'Z' then Char.ofNat (c.toNat + 32) else c

/-- Python `s.lower()`, restricted to ASCII case folding. -/
def pyLower (s : String) : String := ⟨s.data.map lowerChar⟩

/-- Python `s.startswith(pre)`. -/
def pyStartsWith (s pre : String) : Bool := pre.data.isPrefixOf s.data

/-- Python `a or b` on two strings: the empty string is falsy. -/
def pyOr (a b : String) : String := if a = "" then b else a

/-- The character class of `re.split(r"[.?!\n]", ·)` in `first_sentence`. -/
def isSentSplit (c : Char) : Bool := c = '.' || c = '?' || c = '!' || c = '\n'

/-- Python `html.unescape`, modelled on the basic named and numeric entities
(`&lt; &gt; &amp; &quot; &nbsp; &#39;`).  The full Python entity table is not
reproduced; on text containing no `&` the function is the identity, exactly
as `html.unescape` is. -/
def unescapeGo : List Char → List Char
  | [] => []
  | '&' :: 'l' :: 't' :: ';' :: r => '<' :: unescapeGo r
  | '&' :: 'g' :: 't' :: ';' :: r => '>' :: unescapeGo r
  | '&' :: 'a' :: 'm' :: 'p' :: ';' :: r => '&' :: unescapeGo r
  | '&' :: 'q' :: 'u' :: 'o' :: 't' :: ';' :: r => '\x22' :: unescapeGo r
  | '&' :: 'n' :: 'b' :: 's' :: 'p' :: ';' :: r => '\xa0' :: unescapeGo r
  | '&' :: '#' :: '3' :: '9' :: ';' :: r => '\x27' :: unescapeGo r
  | c :: r => c :: unescapeGo r

/-- Python `html.unescape(s)` on the modelled entity set. -/
def pyUnescape (s : String) : String := ⟨unescapeGo s.data⟩

/-- When `dropWhile` leaves a non-empty list, the tail is strictly shorter
than the input (the termination measure fact for `tagSubGo`; stated as a
`def` so that the file keeps all definitions ahead of its theorems). -/
def dropWhile_cons_length {α : Type} {p : α → Bool} {l : List α} {a : α} {tl : List α}
    (h : l.dropWhile p = a :: tl) : tl.length < l.length := by
  have h1 : (l.dropWhile p).length ≤ l.length := (List.dropWhile_suffix _).length_le
  rw [h] at h1
  simp only [List.length_cons] at h1
  omega

/-- The substitution `TAG_RE.sub(" ", ·)` where `TAG_RE = re.compile(r"<[^>]+>")`: each
leftmost match `<`, one or more non-`>` characters, `>` is replaced by a
single space; a `<` with no later `>` (or immediately followed by `>`)
matches nothing and stays. -/
def tagSubGo : List Char → List Char
  | [] => []
  | c :: rest =>
    if c = '<' then
      match h : rest.dropWhile (fun x => x ≠ '>') with
      | [] => c :: rest
      | _ :: tl =>
        if rest.takeWhile (fun x => x ≠ '>') = [] then
          c :: tagSubGo rest
        else
          ' ' :: tagSubGo tl
    else c :: tagSubGo rest
termination_by l => l.length
decreasing_by
  all_goals simp only [List.length_cons]
  all_goals try omega
  all_goals (have hlt := dropWhile_cons_length (by assumption); omega)

/-- String-level `TAG_RE.sub(" ", s)`. -/
def tagSub (s : String) : String := ⟨tagSubGo s.data⟩

/-! ## JSON values and request/response plumbing -/

/-- A JSON value as produced by `request.get_json`.  `null` also stands for
Python `None` (the default of `dict.get`). -/
inductive J where
  | null : J
  | bool : Bool → J
  | num : Int → J
  | str : String → J
  | arr : List J → J
  | obj : List (String × J) → J

/-- Python truthiness of a JSON value. -/
def jTruthy : J → Bool
  | .null => false
  | .bool b => b
  | .num n => n != 0
  | .str s => s ≠ ""
  | .arr xs => !xs.isEmpty
  | .obj fs => !fs.isEmpty

/-- First-match association lookup in a JSON object; `none` when the value is
not an object or the key is absent. -/
def jLookup : J → String → Option J
  | .obj fs, k => fs.lookup k
  | _, _ => none

/-- Python `payload.get(k)`: `None` (modelled as `J.null`) for a missing key,
`AttributeError` when the receiver is not a dict. -/
def jGet : J → String → Except String J
  | .obj fs, k => .ok ((fs.lookup k).getD J.null)
  | _, _ => .error "AttributeError"

/-- Python `str(·)` as applied by `str.format` when the batch title is
interpolated into the article prompt.  `format` never raises, so this is
the only place a non-string request value reaches a string operation
without an error path.  Exact for strings, `None`, booleans and integers;
the `repr`-style rendering of non-empty containers is abstracted to the
empty string, which only changes the prompt text handed to the opaque
`gen` oracle — no theorem below inspects that text. -/
def jStrOf : J → String
  | .str s => s
  | .null => "None"
  | .bool b => if b then "True" else "False"
  | .num n => toString n
  | .arr _ => ""
  | .obj _ => ""

/-- Python `a or b` on JSON values. -/
def jOr (a b : J) : J := if jTruthy a then a else b

/-- An HTTP response as built by `make_response(jsonify(...), status)`. -/
structure Response where
  status : Nat
  body : J

/-! ## External-effect oracles and the data model -/

/-- One parsed feed entry, as `feedparser` hands it to `summarize_feeds`.
Absent string fields are the empty string (the `entry.get(k, "")` default);
`content` is the `entry.content` list of items, projected to their `.value`
strings (`feedparser` always makes it a list).  The `description` field is
present on real feedparser entries but is never read by `app.py`. -/
structure Entry where
  title : String := ""
  headline : String := ""
  link : String := ""
  id : String := ""
  summary : String := ""
  description : String := ""
  content : Option (List String) := none
deriving DecidableEq

/-- One element of the `articles` accumulator in `summarize_feeds`. -/
structure Article where
  title : String
  content : String
  url : String
deriving DecidableEq

/-- The external world: HTML text extraction, HTTP GET, feed parsing and the
generative-model call. -/
structure Env where
  getText : String → Option String
  httpGet : String → Option (Nat × String)
  parseFeed : J → Option (List Entry)
  gen : String → Except String String

/-! ## Translated helpers from `app.py` -/

/-- Constant `MAX_ARTICLES = int(os.environ.get("MAX_ARTICLES", 40))`, at its default. -/
def MAX_ARTICLES : Nat := 40

/-- Function `clean_text_from_html`: strip tags (BeautifulSoup, falling back to
`TAG_RE` on a parse exception), unescape entities, collapse whitespace,
trim. -/
def clean_text_from_html (env : Env) (html : String) : String :=
  if html = "" then ""
  else
    let text := match env.getText html with
      | some t => t
      | none => tagSub html
    pyStrip (collapseWs (pyUnescape text))

/-- Function `fetch_article_text`: bounded GET, empty string on any failure or
non-200 status, body cleaned and truncated to 10000 characters. -/
def fetch_article_text (env : Env) (url : String) : String :=
  match env.httpGet url with
  | none => ""
  | some (status, body) =>
    if status ≠ 200 then "" else (clean_text_from_html env body).take 10000

/-- The initial value of `first` in `first_sentence`:
`re.split(r"[.?!\n]", text)[0].strip()` — the trimmed prefix before the
first sentence-ending character. -/
def firstFragment (text : String) : String :=
  pyStrip ⟨text.data.takeWhile (fun c => !isSentSplit c)⟩

/-- The reassigned value of `first` in `first_sentence`:
`text.strip().split("\n")[0][:200].strip()` — the first line truncated to
200 characters, trimmed. -/
def firstFallback (text : String) : String :=
  pyStrip ⟨(((pyStrip text).data.takeWhile (fun c => c ≠ '\n')).take 200)⟩

/-- The value `first` holds after the conditional reassignment in
`first_sentence` (`if len(first) < 10 and len(text) > 0`). -/
def firstChoice (text : String) : String :=
  if (firstFragment text).length < 10 ∧ 0 < text.length then firstFallback text
  else firstFragment text

/-- Function `first_sentence`: first fragment before `.?!` or newline, trimmed; if
shorter than 10 characters, the first line truncated to 200 characters; a
trailing period is appended. -/
def first_sentence (text : String) : String :=
  if text = "" then ""
  else if firstChoice text = "" then ""
  else pyRStrip (firstChoice text) ++ "."

/-- Function `call_generate`: returns the model text, or the inline
`"[model error: {e}]"` string when the call raises.  The model name, token
budget and temperature are constants absorbed into the `gen` oracle. -/
def call_generate (env : Env) (prompt : String) : String :=
  match env.gen prompt with
  | .ok t => t
  | .error e => "[model error: " ++ e ++ "]"

/-- The filled template `ARTICLE_PROMPT_TEMPLATE.format(title=..., content=...)`. -/
def articlePrompt (title content : String) : String :=
  "You are a recruiting-market analyst. ONLY use facts contained in the ARTICLE_CONTENT block below. " ++
  "Do not invent details, dates, numbers, or people. If the article contains no hiring, layoffs, funding, " ++
  "acquisitions, leadership change, or org-change signals, reply exactly: No relevant recruiting signals found.\n\n" ++
  "TITLE: " ++ title ++ "\n\n" ++
  "ARTICLE_CONTENT: " ++ content ++ "\n\n" ++
  "INSTRUCTIONS: Produce one concise sentence focused on recruiting signals present in ARTICLE_CONTENT. " ++
  "Keep it short and factual. Do not add context or other facts not present in ARTICLE_CONTENT."

/-- The filled template `DIGEST_PROMPT_TEMPLATE.format(summaries=...)` (apostrophes written as
`\x27`). -/
def digestPrompt (summariesBlock : String) : String :=
  "You are a recruiting-market analyst. ONLY use the one-sentence summaries provided below. " ++
  "Do not invent facts. From these sentences, produce:\n" ++
  "1) One 1-sentence high-level trend summary.\n" ++
  "2) A short bulleted list (up to 5 bullets) of the most relevant recruiting signals, " ++
  "each bullet 1-2 short phrases (for example: \x27Company X hiring surge\x27, \x27Acquisition Y prompts restructuring\x27).\n\n" ++
  "If the provided summaries are all \x27No relevant recruiting signals found\x27 or empty, reply: No recruiting signals across these articles.\n\n" ++
  "SUMMARIES:\n" ++ summariesBlock ++ "\n\n" ++
  "OUTPUT:"

/-- The per-article sentinel string from `ai_summary` / the article prompt. -/
def noSignalSentinel : String := "No relevant recruiting signals found."

/-- The aggregate sentinel returned by `ai_digest` for an empty cleaned list. -/
def noSignalsDigest : String := "No recruiting signals across these articles."

/-- The prompt `ai_summary` submits: the cleaned content truncated to 6000
characters, substituted into the article template. -/
def articlePromptFor (env : Env) (title content : String) : String :=
  articlePrompt title ((clean_text_from_html env content).take 6000)

/-- The post-processed model text inside `ai_summary`:
`call_generate(...).strip()`, then `.replace("\n", " ").strip()`. -/
def modelTextFor (env : Env) (title content : String) : String :=
  pyStrip (replaceNl (pyStrip (call_generate env (articlePromptFor env title content))))

/-- Function `ai_summary`: call the model on the article prompt, strip, collapse
newlines, strip again; the sentinel on empty output, otherwise
`first_sentence`. -/
def ai_summary (env : Env) (title content : String) : String :=
  if modelTextFor env title content = "" then noSignalSentinel
  else first_sentence (modelTextFor env title content)

/-- The filtered-and-stripped summary list `ai_digest` aggregates:
`[s.strip() for s in summaries if s and not s.lower().startswith("[model error:")]`. -/
def cleanedSummaries (summaries : List String) : List String :=
  (summaries.filter
    (fun s => s ≠ "" && !(pyStartsWith (pyLower s) "[model error:"))).map pyStrip

/-- Function `ai_digest`: the fixed sentinel when the cleaned list is empty, otherwise
the stripped model response on the digest prompt over the first 50 cleaned
summaries. -/
def ai_digest (env : Env) (summaries : List String) : String :=
  let cleaned := cleanedSummaries summaries
  if cleaned.isEmpty then noSignalsDigest
  else
    let cleaned := cleaned.take 50
    let block := String.intercalate "\n" (cleaned.map (fun s => "- " ++ s))
    pyStrip (call_generate env (digestPrompt block))

/-- Control-flow instrumentation for `ai_digest`: `call_generate` is reached
if and only if the cleaned summary list is non-empty (otherwise the function
returns the fixed sentinel first). -/
def ai_digest_calls_model (summaries : List String) : Bool :=
  !(cleanedSummaries summaries).isEmpty

/-! ## The `/summarize` collection loop -/

/-- Source line `title = entry.get("title", "") or entry.get("headline", "")`. -/
def entryTitle (e : Entry) : String := pyOr e.title e.headline

/-- Source line `url = entry.get("link", "") or entry.get("id", "")`. -/
def entryUrl (e : Entry) : String := pyOr e.link e.id

/-- Source line `key = (url or title).strip()`, the dedup key of an entry. -/
def entryKey (e : Entry) : String := pyStrip (pyOr (entryUrl e) (entryTitle e))

/-- The body text chosen for an entry: `entry.content[0].value` when the
content list is non-empty, else a non-empty `summary`, else a page fetch
when the url is non-empty, else empty. -/
def entryContent (env : Env) (url : String) (e : Entry) : String :=
  match e.content with
  | some (v :: _) => v
  | _ =>
    if e.summary ≠ "" then e.summary
    else if url ≠ "" then fetch_article_text env url
    else ""

/-- The dict appended to `articles` for one accepted entry. -/
def mkArticle (env : Env) (e : Entry) : Article :=
  { title := entryTitle e, content := entryContent env (entryUrl e) e, url := entryUrl e }

/-- The dedup key recoverable from a built article: since
`Article.url = url` and `Article.title = title`, this equals the `key`
that was inserted into `seen` when the article was appended. -/
def articleKey (a : Article) : String := pyStrip (pyOr a.url a.title)

/-- The mutable state of the collection loop: the `seen` key set (as the
list of inserted keys) and the `articles` accumulator. -/
structure CollectSt where
  seen : List String
  articles : List Article
deriving DecidableEq

/-- The inner `for entry in parsed.entries` loop of `summarize_feeds`:
break once `len(articles) >= MAX_ARTICLES`, skip empty or already-seen keys,
otherwise record the key and append the article. -/
def collectEntries (env : Env) : CollectSt → List Entry → CollectSt
  | st, [] => st
  | st, e :: rest =>
    if MAX_ARTICLES ≤ st.articles.length then st
    else if entryKey e = "" ∨ entryKey e ∈ st.seen then collectEntries env st rest
    else
      collectEntries env
        { seen := entryKey e :: st.seen, articles := st.articles ++ [mkArticle env e] }
        rest

/-- The outer `for feed_url in feed_urls` loop: a feed whose parse raises
(`none`) or yields no entries (`some []`) is skipped. -/
def collectFeeds (env : Env) : CollectSt → List J → CollectSt
  | st, [] => st
  | st, u :: rest =>
    match env.parseFeed u with
    | none => collectFeeds env st rest
    | some [] => collectFeeds env st rest
    | some entries => collectFeeds env (collectEntries env st entries) rest

/-- The entries the request's feeds together yield, in processing order
(feeds in request order, entries in feed order); failed feeds contribute
nothing. -/
def processedEntries (env : Env) (urls : List J) : List Entry :=
  urls.flatMap (fun u => ((env.parseFeed u).getD []))

/-! ## Endpoint handlers -/

/-- Expression `request.get_json(force=True, silent=True) or` empty dict: an absent or
unparseable body gives `None` (here `none`), and any falsy parse result is
replaced by the empty object. -/
def normalizePayload (body : Option J) : J :=
  match body with
  | none => J.obj []
  | some v => if jTruthy v then v else J.obj []

/-- Expression `payload.get(k) or []`: the field value with falsy values replaced by an
empty list; raises (`.error`) when the payload is not a dict. -/
def normalizedField (payload : J) (k : String) : Except String J :=
  match jGet payload k with
  | .error e => .error e
  | .ok v => .ok (if jTruthy v then v else J.arr [])

/-- The `400` response of `summarize_feeds`. -/
def resp400feeds : Response := ⟨400, J.obj [("error", J.str "Provide feedUrls list")]⟩

/-- The `400` response of `summarize_batch`. -/
def resp400batch : Response := ⟨400, J.obj [("error", J.str "Provide a non-empty articles list")]⟩

/-- The `handle_exception` catch-all: HTTP 500 with a generic error body. -/
def resp500 (msg : String) : Response :=
  ⟨500, J.obj [("error", J.str "internal_server_error"), ("message", J.str msg)]⟩

/-- The 200 response assembled by `summarize_feeds` from the collected
articles: when none were collected, the fixed empty result; otherwise the
per-article summaries and the digest over them. -/
def feedsOkResponse (env : Env) (st : CollectSt) : Response :=
  if st.articles.isEmpty then
    ⟨200, J.obj [("summaries", J.arr []),
                 ("digest", J.str "No articles found from provided feeds.")]⟩
  else
    let pairs := st.articles.map (fun a => (a, ai_summary env a.title a.content))
    let results := pairs.map (fun p =>
      J.obj [("title", J.str p.1.title), ("summary", J.str p.2), ("url", J.str p.1.url)])
    let summaries := pairs.map (fun p => p.2)
    ⟨200, J.obj [("summaries", J.arr results),
                 ("digest", J.str (ai_digest env summaries))]⟩

/-- The body of `summarize_feeds` up to, but not including, the top-level
Flask exception handler: validate `feedUrls`, collect articles over the
feeds, summarize and build the digest. -/
def summarize_feeds_core (env : Env) (body : Option J) : Except String Response :=
  match normalizedField (normalizePayload body) "feedUrls" with
  | .error e => .error e
  | .ok (J.arr (u :: us)) => .ok (feedsOkResponse env (collectFeeds env ⟨[], []⟩ (u :: us)))
  | .ok _ => .ok resp400feeds

/-- The `/summarize` handler, including the `handle_exception` catch-all. -/
def summarize_feeds (env : Env) (body : Option J) : Response :=
  match summarize_feeds_core env body with
  | .ok r => r
  | .error msg => resp500 msg

/-- Two-key `or`-chain over a batch article's dict:
`art.get(k1) or art.get(k2) or ""`. -/
def batchField (fs : List (String × J)) (k1 k2 : String) : J :=
  jOr ((fs.lookup k1).getD J.null) (jOr ((fs.lookup k2).getD J.null) (J.str ""))

/-- Source line `url = art.get("url") or ""` on a batch article's dict. -/
def batchUrl (fs : List (String × J)) : J :=
  jOr ((fs.lookup "url").getD J.null) (J.str "")

/-- Source call `fetch_article_text(url)` in the batch loop: for a
non-string url, `requests.get` raises inside `fetch_article_text`'s own
try/except, so the result is the empty string either way. -/
def batchFetch (env : Env) (url : J) : String :=
  match url with
  | J.str s => fetch_article_text env s
  | _ => ""

/-- The body value `ai_summary` receives for one batch article: the
`content or summary or ""` chain, replaced by a page fetch when it is
falsy and the url is truthy.  The result is a string unless the chain
picked a truthy non-string field. -/
def batchContent (env : Env) (fs : List (String × J)) : J :=
  if !jTruthy (batchField fs "content" "summary") && jTruthy (batchUrl fs) then
    J.str (batchFetch env (batchUrl fs))
  else batchField fs "content" "summary"

/-- Per-article processing of `summarize_batch`: field extraction with
Python `or`-chains, optional page fetch, then `ai_summary`.  Returns the
title and url values (kept as JSON values, as the source echoes them back)
and the computed summary.  The raises of the source are modelled exactly:
the first `art.get` raises `AttributeError` when `art` is not a dict, and
a truthy non-string content raises `TypeError` inside
`clean_text_from_html` (BeautifulSoup rejects the value inside the `try`,
and the fallback `TAG_RE.sub(" ", html)` then raises outside it). -/
def batchItem (env : Env) (art : J) : Except String (J × String × J) :=
  match art with
  | J.obj fs =>
    match batchContent env fs with
    | J.str s =>
      .ok (batchField fs "title" "headline",
           ai_summary env (jStrOf (batchField fs "title" "headline")) s,
           batchUrl fs)
    | _ => .error "TypeError"
  | _ => .error "AttributeError"

/-- Whether one batch article avoids both raise paths of `batchItem`: it
is a dict and its `content or summary or ""` chain yields a string (the
fetch replacement always yields a string, so only a truthy non-string
content/summary field can make `batchContent` a non-string). -/
def batchArticleOk : J → Bool
  | J.obj fs =>
    match batchField fs "content" "summary" with
    | J.str _ => true
    | _ => false
  | _ => false

/-- Whether every article of a batch list avoids the raise paths. -/
def allBatchOk (xs : List J) : Bool := xs.all batchArticleOk

/-- The `for art in articles[:MAX_ARTICLES]` loop of `summarize_batch`: a
raised `AttributeError` aborts the loop at that article. -/
def batchLoop (env : Env) : List J → Except String (List (J × String × J))
  | [] => .ok []
  | a :: rest =>
    match batchItem env a with
    | .error e => .error e
    | .ok r =>
      match batchLoop env rest with
      | .error e => .error e
      | .ok rs => .ok (r :: rs)

/-- The part of `summarize_batch` that runs once validation has passed:
process the first `MAX_ARTICLES` articles and assemble the 200 response
(or propagate a raised `AttributeError`). -/
def batchOkResponse (env : Env) (items : List J) : Except String Response :=
  match batchLoop env (items.take MAX_ARTICLES) with
  | .error e => .error e
  | .ok rs =>
    let results := rs.map (fun r =>
      J.obj [("title", r.1), ("summary", J.str r.2.1), ("url", r.2.2)])
    let all_summaries := rs.map (fun r => r.2.1)
    .ok ⟨200, J.obj [("summaries", J.arr results),
                     ("digest", J.str (ai_digest env all_summaries))]⟩

/-- The body of `summarize_batch` up to the top-level exception handler. -/
def summarize_batch_core (env : Env) (body : Option J) : Except String Response :=
  match normalizedField (normalizePayload body) "articles" with
  | .error e => .error e
  | .ok (J.arr (a :: as)) => batchOkResponse env (a :: as)
  | _ => .ok resp400batch

/-- The `/summarize_batch` handler, including the catch-all. -/
def summarize_batch (env : Env) (body : Option J) : Response :=
  match summarize_batch_core env body with
  | .ok r => r
  | .error msg => resp500 msg

/-! ## Observation helpers for response bodies -/

/-- The length of the `summaries` array of a response body, when present. -/
def summariesLen (r : Response) : Option Nat :=
  match jLookup r.body "summaries" with
  | some (J.arr xs) => some xs.length
  | _ => none

/-- How many objects in the response's `summaries` array carry the given
`url` value. -/
def summaryUrlCount (r : Response) (L : String) : Option Nat :=
  match jLookup r.body "summaries" with
  | some (J.arr xs) =>
    some (xs.countP (fun j =>
      match jLookup j "url" with
      | some (J.str u) => u = L
      | _ => false))
  | _ => none

/-! ## Statement-level predicates -/

/-- Two adjacent characters are not both whitespace. -/
def NoWsPair (a b : Char) : Prop := ¬(isPySpace a = true ∧ isPySpace b = true)

/-- A string has no two consecutive whitespace characters. -/
def NoDoubleWs (s : String) : Prop := List.Chain' NoWsPair s.data

/-- A string has no leading and no trailing whitespace. -/
def NoEdgeWs (s : String) : Prop :=
  (∀ c ∈ s.data.head?, isPySpace c = false) ∧ (∀ c ∈ s.data.getLast?, isPySpace c = false)

/-- Whether a JSON value is an object (a Python dict). -/
def jIsObj : J → Bool
  | .obj _ => true
  | _ => false

/-- Whether `payload.get(k) or []` evaluates, without raising, to a
non-empty list — the condition under which the endpoints proceed past
their `400` validation. -/
def fieldNonemptyList (payload : J) (k : String) : Bool :=
  match normalizedField payload k with
  | .ok (J.arr (_ :: _)) => true
  | _ => false

/-- Loop invariant of the `/summarize` collection state: every collected
article's dedup key has been recorded in `seen`, and the collected keys are
pairwise distinct. -/
def GoodSt (st : CollectSt) : Prop :=
  (∀ a ∈ st.articles, articleKey a ∈ st.seen) ∧ (st.articles.map articleKey).Nodup

/-! ## Concrete fixtures for witnesses and counterexamples -/

/-- An environment whose HTML text extraction is the identity — the
behaviour of `BeautifulSoup(s, "html.parser").get_text()` on inputs that
contain no markup and no entities (the HTML tokenizer treats a `<` that does
not open a tag, e.g. one followed by a space, as character data).  The other
oracles are unused failure stubs. -/
def envIdText : Env :=
  { getText := fun s => some s
    httpGet := fun _ => none
    parseFeed := fun _ => none
    gen := fun _ => .error "unavailable" }

/-- An environment whose model call always returns the fixed text
`"Hiring rose."`. -/
def envConstGen : Env := { envIdText with gen := fun _ => .ok "Hiring rose." }

/-- An environment whose model call always returns the empty string. -/
def envEmptyGen : Env := { envIdText with gen := fun _ => .ok "" }

/-- A feed entry whose `link` is the one-space string and whose other
fields are absent. -/
def eBlankLink : Entry := { link := " " }

/-- An environment in which every feed parses to two entries that share the
whitespace-only link `" "`. -/
def envDupBlank : Env := { envIdText with parseFeed := fun _ => some [eBlankLink, eBlankLink] }

/-- Two entries sharing the link `"x"`, with different titles. -/
def eX1 : Entry := { link := "x", title := "first" }

/-- See `eX1`. -/
def eX2 : Entry := { link := "x", title := "second" }

/-- An environment in which every feed parses to `[eX1, eX2]`. -/
def envDupX : Env := { envIdText with parseFeed := fun _ => some [eX1, eX2] }

/-- Eleven entries with pairwise distinct links, for the cap counterexample. -/
def entries11 : List Entry := (List.range 11).map (fun i => { link := "L" ++ toString i : Entry })

/-- An environment in which every feed parses to the eleven entries above. -/
def env11 : Env := { envIdText with parseFeed := fun _ => some entries11 }

/-- An entry carrying only a `description` and a `title` — the fields the
spec's claimed precedence would fall back to. -/
def eDescOnly : Entry := { title := "t", description := "D" }

/-- An environment in which every feed parses to `[eDescOnly]`. -/
def envDescOnly : Env := { envIdText with parseFeed := fun _ => some [eDescOnly] }

/-- A well-formed `/summarize` request body over a single feed URL. -/
def bodyOneFeed : J := J.obj [("feedUrls", J.arr [J.str "u"])]

/-! ## Helper lemmas: dropWhile, strip, collapse -/

/-- The element at which `dropWhile` stops does not satisfy the predicate. -/
theorem dropWhile_head_false {α : Type} (p : α → Bool) :
    ∀ (l : List α) {c : α} {r : List α}, l.dropWhile p = c :: r → p c = false := by
  intro l
  induction l with
  | nil => intro c r h; simp at h
  | cons a t ih =>
    intro c r h
    rw [List.dropWhile_cons] at h
    by_cases hpa : p a = true
    · rw [if_pos hpa] at h
      exact ih h
    · rw [if_neg hpa] at h
      cases h
      exact Bool.not_eq_true _ ▸ (by simpa using hpa)

/-- When the head fails the predicate, `dropWhile` is the identity. -/
theorem dropWhile_eq_self_of_head {α : Type} (p : α → Bool) (l : List α)
    (h : ∀ c ∈ l.head?, p c = false) : l.dropWhile p = l := by
  cases l with
  | nil => rfl
  | cons a t =>
    have ha : p a = false := h a rfl
    simp [List.dropWhile_cons, ha]

/-- Stripping yields a prefix of the front-trimmed list. -/
theorem stripChars_front (l : List Char) : stripChars l <+: l.dropWhile isPySpace := by
  apply List.reverse_suffix.mp
  have h2 : (stripChars l).reverse = (l.dropWhile isPySpace).reverse.dropWhile isPySpace := by
    simp [stripChars]
  rw [h2]
  exact List.dropWhile_suffix _

/-- Stripping yields a contiguous sublist of the original list. -/
theorem stripChars_within (l : List Char) : stripChars l <:+: l :=
  List.IsInfix.trans
    ( List.IsPrefix.isInfix (stripChars_front l))
    ( List.IsSuffix.isInfix (List.dropWhile_suffix _))

/-- The first character of a stripped list is not whitespace. -/
theorem stripChars_head_false {l : List Char} {c : Char} {r : List Char}
    (h : stripChars l = c :: r) : isPySpace c = false := by
  obtain ⟨t, ht⟩ := stripChars_front l
  rw [h] at ht
  exact dropWhile_head_false isPySpace l ht.symm

/-- The last character of a stripped list is not whitespace. -/
theorem stripChars_getLast_false {l : List Char} {c : Char}
    (h : (stripChars l).getLast? = some c) : isPySpace c = false := by
  unfold stripChars at h
  rw [List.getLast?_reverse] at h
  cases hx : (l.dropWhile isPySpace).reverse.dropWhile isPySpace with
  | nil => rw [hx] at h; simp at h
  | cons a r =>
    rw [hx] at h
    simp only [List.head?_cons, Option.some.injEq] at h
    subst h
    exact dropWhile_head_false isPySpace _ hx

/-- Stripping a list whose two ends are not whitespace is the identity. -/
theorem stripChars_eq_self {l : List Char}
    (h1 : ∀ c ∈ l.head?, isPySpace c = false)
    (h2 : ∀ c ∈ l.getLast?, isPySpace c = false) : stripChars l = l := by
  unfold stripChars
  rw [dropWhile_eq_self_of_head _ l h1]
  rw [dropWhile_eq_self_of_head _ l.reverse (by
    intro c hc
    rw [List.head?_reverse] at hc
    exact h2 c hc)]
  exact l.reverse_reverse

/-- Stripping is idempotent. -/
theorem stripChars_idem (l : List Char) : stripChars (stripChars l) = stripChars l := by
  apply stripChars_eq_self
  · intro c hc
    cases hst : stripChars l with
    | nil => rw [hst] at hc; simp at hc
    | cons a r =>
      rw [hst] at hc
      simp only [List.head?_cons, Option.mem_def, Option.some.injEq] at hc
      subst hc
      exact stripChars_head_false hst
  · intro c hc
    exact stripChars_getLast_false hc

/-- Right-stripping after a full strip changes nothing. -/
theorem rstripChars_stripChars (l : List Char) :
    rstripChars (stripChars l) = stripChars l := by
  unfold rstripChars
  rw [dropWhile_eq_self_of_head _ (stripChars l).reverse (by
    intro c hc
    rw [List.head?_reverse] at hc
    exact stripChars_getLast_false hc)]
  exact List.reverse_reverse _

/-- A list containing a non-whitespace character does not strip to nil. -/
theorem stripChars_ne_nil {l : List Char} {c : Char}
    (hc : c ∈ l) (hws : isPySpace c = false) : stripChars l ≠ [] := by
  intro h
  unfold stripChars at h
  rw [List.reverse_eq_nil_iff, List.dropWhile_eq_nil_iff] at h
  have hcm : c ∈ l.dropWhile isPySpace := by
    have hsplit := List.takeWhile_append_dropWhile (p := isPySpace) (l := l)
    rw [← hsplit] at hc
    rcases List.mem_append.mp hc with hin | hin
    · exact absurd (List.mem_takeWhile_imp hin) (by simp [hws])
    · exact hin
  have := h c (List.mem_reverse.mpr hcm)
  rw [hws] at this
  exact Bool.false_ne_true this

/-- The output of `collapseGo true` never starts with whitespace: a pending
whitespace run is skipped until a non-whitespace character is emitted. -/
theorem collapseGo_true_head :
    ∀ (l : List Char) {c : Char} {r : List Char},
      collapseGo true l = c :: r → isPySpace c = false := by
  intro l
  induction l with
  | nil => intro c r h; simp [collapseGo] at h
  | cons a t ih =>
    intro c r h
    by_cases hws : isPySpace a = true
    · rw [show collapseGo true (a :: t) = collapseGo true t by simp [collapseGo, hws]] at h
      exact ih h
    · rw [show collapseGo true (a :: t) = a :: collapseGo false t by
        simp [collapseGo, hws]] at h
      cases h
      simpa using hws

/-- The collapsed list never contains two adjacent whitespace characters. -/
theorem collapseGo_chain (l : List Char) :
    ∀ b : Bool, List.Chain' NoWsPair (collapseGo b l) := by
  induction l with
  | nil => intro b; simp [collapseGo]
  | cons a t ih =>
    intro b
    by_cases hws : isPySpace a = true
    · cases b with
      | true =>
        rw [show collapseGo true (a :: t) = collapseGo true t by simp [collapseGo, hws]]
        exact ih true
      | false =>
        rw [show collapseGo false (a :: t) = ' ' :: collapseGo true t by
          simp [collapseGo, hws]]
        rw [List.chain'_cons']
        refine ⟨?_, ih true⟩
        intro y hy
        cases hgo : collapseGo true t with
        | nil => rw [hgo] at hy; simp at hy
        | cons d r =>
          rw [hgo] at hy
          simp only [List.head?_cons, Option.mem_def, Option.some.injEq] at hy
          subst hy
          intro hand
          rw [collapseGo_true_head t hgo] at hand
          exact Bool.false_ne_true hand.2
    · rw [show collapseGo b (a :: t) = a :: collapseGo false t by
        simp [collapseGo, hws]]
      rw [List.chain'_cons']
      refine ⟨?_, ih false⟩
      intro y hy hand
      exact hws hand.1

/-- On an all-whitespace list, `collapseGo true` emits nothing. -/
theorem collapseGo_true_allws :
    ∀ l : List Char, (∀ c ∈ l, isPySpace c = true) → collapseGo true l = [] := by
  intro l
  induction l with
  | nil => intro h; rfl
  | cons a t ih =>
    intro h
    have hws : isPySpace a = true := h a (List.mem_cons_self a t)
    rw [show collapseGo true (a :: t) = collapseGo true t by simp [collapseGo, hws]]
    exact ih (fun c hc => h c (List.mem_cons_of_mem a hc))

/-- Collapsing then stripping an all-whitespace list yields the empty list. -/
theorem strip_collapse_allws (l : List Char) (h : ∀ c ∈ l, isPySpace c = true) :
    stripChars (collapseGo false l) = [] := by
  cases l with
  | nil => rfl
  | cons a t =>
    have hws : isPySpace a = true := h a (List.mem_cons_self a t)
    rw [show collapseGo false (a :: t) = ' ' :: collapseGo true t by simp [collapseGo, hws]]
    rw [collapseGo_true_allws t (fun c hc => h c (List.mem_cons_of_mem a hc))]
    rfl

/-- Unescaping commutes over a leading whitespace character: no whitespace
character is an ampersand, so no entity pattern can begin there. -/
theorem unescapeGo_ws_cons {a : Char} (t : List Char) (ha : isPySpace a = true) :
    unescapeGo (a :: t) = a :: unescapeGo t := by
  simp only [isPySpace, Bool.or_eq_true, decide_eq_true_eq] at ha
  rcases ha with ((((((h | h) | h) | h) | h) | h) | h) <;> subst h <;> rfl

/-- Unescaping an all-whitespace list is the identity. -/
theorem unescapeGo_allws :
    ∀ l : List Char, (∀ c ∈ l, isPySpace c = true) → unescapeGo l = l := by
  intro l
  induction l with
  | nil => intro _; rfl
  | cons a t ih =>
    intro h
    rw [unescapeGo_ws_cons t (h a (List.mem_cons_self a t))]
    rw [ih (fun c hc => h c (List.mem_cons_of_mem a hc))]

/-- Stripping any string leaves no whitespace at either end. -/
theorem noEdgeWs_pyStrip (s : String) : NoEdgeWs (pyStrip s) := by
  constructor
  · intro c hc
    cases hst : stripChars s.data with
    | nil =>
      rw [show (pyStrip s).data = stripChars s.data from rfl, hst] at hc
      simp at hc
    | cons a r =>
      rw [show (pyStrip s).data = stripChars s.data from rfl, hst] at hc
      simp only [List.head?_cons, Option.mem_def, Option.some.injEq] at hc
      subst hc
      exact stripChars_head_false hst
  · intro c hc
    rw [show (pyStrip s).data = stripChars s.data from rfl] at hc
    exact stripChars_getLast_false hc

/-- Collapsing then stripping leaves no two adjacent whitespace characters. -/
theorem noDoubleWs_pyStrip_collapseWs (s : String) :
    NoDoubleWs (pyStrip (collapseWs s)) := by
  show List.Chain' NoWsPair (stripChars (collapseGo false s.data))
  exact List.Chain'.infix (collapseGo_chain s.data false) (stripChars_within _)

/-- C5, amended.  For every input, `clean_text_from_html` returns (without
raising — it is a total function) a string with no two consecutive
whitespace characters and no leading or trailing whitespace; the empty
input maps to the empty string, and a whitespace-only input maps to the
empty string whenever the HTML text extraction returns the input text
itself.  The original claim's guarantee that the output contains no `<`
or `>` characters is dropped: it fails when the visible text itself
contains such characters (see the counterexample). -/
theorem claim5_theorem (env : Env) (html : String) :
    NoDoubleWs (clean_text_from_html env html) ∧
    NoEdgeWs (clean_text_from_html env html) ∧
    (html = "" → clean_text_from_html env html = "") ∧
    ((∀ c ∈ html.data, isPySpace c = true) → env.getText html = some html →
      clean_text_from_html env html = "") := by
  refine ⟨?_, ?_, ?_, ?_⟩
  · unfold clean_text_from_html
    by_cases h : html = ""
    · rw [if_pos h]; simp [NoDoubleWs]
    · rw [if_neg h]; exact noDoubleWs_pyStrip_collapseWs _
  · unfold clean_text_from_html
    by_cases h : html = ""
    · rw [if_pos h]
      exact ⟨by intro c hc; simp at hc, by intro c hc; simp at hc⟩
    · rw [if_neg h]; exact noEdgeWs_pyStrip _
  · intro h
    simp [clean_text_from_html, h]
  · intro hws hgt
    by_cases h : html = ""
    · simp [clean_text_from_html, h]
    · unfold clean_text_from_html
      rw [if_neg h, hgt]
      show (⟨stripChars (collapseGo false (unescapeGo html.data))⟩ : String) = ""
      rw [unescapeGo_allws _ hws, strip_collapse_allws _ hws]

/-- Witness for C5: the guarantees evaluated at concrete inputs — the empty
input and a whitespace-only input both clean to the empty string. -/
theorem claim5_witness :
    clean_text_from_html envIdText "" = "" ∧
    clean_text_from_html envIdText " \t " = "" := by
  exact ⟨(claim5_theorem envIdText "").2.2.1 rfl,
         (claim5_theorem envIdText " \t ").2.2.2 (by decide) rfl⟩

/-- Counterexample to C5 as stated: on the input `"1 < 2"` — plain text in
which `<` does not open any tag, so `get_text` returns it unchanged — the
cleaned output still contains the character `<`. -/
theorem claim5_counterexample :
    clean_text_from_html envIdText "1 < 2" = "1 < 2" ∧ '<' ∈ ("1 < 2").data := by
  exact ⟨by decide, by decide⟩

/-! ## Helper lemmas: strings as character lists -/

/-- A string with non-empty character data is not the empty string. -/
theorem string_ne_empty_of_data {s : String} (h : s.data ≠ []) : s ≠ "" := by
  intro hh
  rw [hh] at h
  exact h rfl

/-- A non-empty string has non-empty character data. -/
theorem data_ne_nil_of_ne_empty {s : String} (h : s ≠ "") : s.data ≠ [] := by
  intro hd
  exact h (String.ext (by rw [hd]))

/-- Right-stripping an already stripped string changes nothing. -/
theorem pyRStrip_pyStrip (y : String) : pyRStrip (pyStrip y) = pyStrip y :=
  String.ext (rstripChars_stripChars y.data)

/-- Appending the final period: the result is non-empty and ends in `'.'`. -/
theorem dot_append_facts (f : String) (hr : pyRStrip f = f) :
    (pyRStrip f ++ ".") ≠ "" ∧ (pyRStrip f ++ ".").data.getLast? = some '.' := by
  rw [hr]
  constructor
  · apply string_ne_empty_of_data
    rw [String.data_append]
    simp
  · rw [String.data_append]
    rw [show ("." : String).data = ['.'] by decide]
    exact List.getLast?_concat _

/-- For a non-empty, stripped, newline-free input, `first_sentence` returns
a non-empty string ending in a period. -/
theorem first_sentence_good (text : String) (hne : text ≠ "")
    (hstrip : stripChars text.data = text.data) (hnl : '\n' ∉ text.data) :
    first_sentence text ≠ "" ∧ (first_sentence text).data.getLast? = some '.' := by
  have hdata : text.data ≠ [] := data_ne_nil_of_ne_empty hne
  have hlenpos : 0 < text.length := by
    rw [show text.length = text.data.length from rfl]
    exact List.length_pos.mpr hdata
  obtain ⟨c, rest, hcr⟩ : ∃ c rest, text.data = c :: rest := by
    cases hd : text.data with
    | nil => exact absurd hd hdata
    | cons c rest => exact ⟨c, rest, rfl⟩
  have hcws : isPySpace c = false :=
    stripChars_head_false (l := text.data) (by rw [hstrip, hcr])
  have hchoice : firstChoice text ≠ "" ∧ ∃ y, firstChoice text = pyStrip y := by
    unfold firstChoice
    by_cases hc : (firstFragment text).length < 10 ∧ 0 < text.length
    · rw [if_pos hc]
      have htw : text.data.takeWhile (fun x => x ≠ '\n') = text.data := by
        rw [List.takeWhile_eq_self_iff]
        intro x hx
        simp only [ne_eq, decide_eq_true_eq]
        intro hxe
        exact hnl (hxe ▸ hx)
      refine ⟨?_, ⟨_, rfl⟩⟩
      apply string_ne_empty_of_data
      show stripChars (((pyStrip text).data.takeWhile (fun x => x ≠ '\n')).take 200) ≠ []
      rw [show (pyStrip text).data = stripChars text.data from rfl, hstrip, htw, hcr]
      rw [List.take_cons (by norm_num)]
      exact stripChars_ne_nil (List.mem_cons_self _ _) hcws
    · rw [if_neg hc]
      have hlen : ¬((firstFragment text).length < 10) := by
        intro hlt
        exact hc ⟨hlt, hlenpos⟩
      refine ⟨?_, ⟨_, rfl⟩⟩
      apply string_ne_empty_of_data
      intro hd
      rw [show (firstFragment text).length = (firstFragment text).data.length from rfl,
          hd] at hlen
      simp at hlen
  obtain ⟨hcne, y, hy⟩ := hchoice
  unfold first_sentence
  rw [if_neg hne, if_neg hcne, hy]
  exact dot_append_facts _ (pyRStrip_pyStrip _)

/-- The post-processed model text is a fixed point of stripping. -/
theorem modelTextFor_stripped (env : Env) (title content : String) :
    stripChars (modelTextFor env title content).data
      = (modelTextFor env title content).data :=
  stripChars_idem _

/-- The post-processed model text contains no newline: `replace("\n", " ")`
removed them all and stripping introduces none. -/
theorem modelTextFor_no_nl (env : Env) (title content : String) :
    '\n' ∉ (modelTextFor env title content).data := by
  intro hmem
  have h1 : '\n' ∈ (replaceNl (pyStrip
      (call_generate env (articlePromptFor env title content)))).data :=
    List.IsInfix.subset (stripChars_within _) hmem
  rcases List.mem_map.mp h1 with ⟨a, _, ha⟩
  by_cases hA : a = '\n'
  · rw [if_pos hA] at ha
    exact absurd ha (by decide)
  · rw [if_neg hA] at ha
    exact hA ha

/-- C4, confirmed.  For every title, content and model behaviour,
`ai_summary` returns a non-empty string terminated by a period; when the
model output is blank (empty after whitespace trimming) it returns the
fixed sentinel, and otherwise it returns `first_sentence` of the
newline-collapsed, trimmed model output. -/
theorem claim4_theorem (env : Env) (title content : String) :
    ai_summary env title content ≠ "" ∧
    (ai_summary env title content).data.getLast? = some '.' ∧
    (modelTextFor env title content = "" →
      ai_summary env title content = noSignalSentinel) ∧
    (modelTextFor env title content ≠ "" →
      ai_summary env title content = first_sentence (modelTextFor env title content)) := by
  by_cases h : modelTextFor env title content = ""
  · have hai : ai_summary env title content = noSignalSentinel := by
      simp [ai_summary, h]
    refine ⟨?_, ?_, fun _ => hai, fun hne => absurd h hne⟩
    · rw [hai]; decide
    · rw [hai]; decide
  · have hai : ai_summary env title content
        = first_sentence (modelTextFor env title content) := by
      simp [ai_summary, h]
    have hfs := first_sentence_good (modelTextFor env title content) h
      (modelTextFor_stripped env title content) (modelTextFor_no_nl env title content)
    exact ⟨hai ▸ hfs.1, hai ▸ hfs.2, fun hh => absurd hh h, fun _ => hai⟩

/-- Witness for C4: with a model that returns blank output, `ai_summary`
returns the sentinel; with a model returning a two-sentence text, it
returns the first sentence with its period. -/
theorem claim4_witness :
    ai_summary envEmptyGen "t" "c" = noSignalSentinel ∧
    ai_summary envConstGen "t" "c" ≠ "" := by
  exact ⟨(claim4_theorem envEmptyGen "t" "c").2.2.1 (by decide),
         (claim4_theorem envConstGen "t" "c").1⟩

/-! ## Claims about the digest and the request plumbing -/

/-- C1, amended.  `ai_digest` returns the fixed no-signals sentinel without
reaching the model call exactly when the filter leaves nothing, i.e. when
every input string is empty (or error-tagged).  A list whose elements are
the per-article sentinel `"No relevant recruiting signals found."` is NOT
filtered out: it is passed to the model (whose prompt instructs it to reply
with the no-signals sentinel), so the fixed sentinel short-circuit applies
only to the empty/error-tagged case. -/
theorem claim1_theorem (env : Env) (summaries : List String) :
    ((∀ s ∈ summaries, s = "") →
      ai_digest env summaries = noSignalsDigest ∧
      ai_digest_calls_model summaries = false) ∧
    (noSignalSentinel ∈ summaries → ai_digest_calls_model summaries = true) := by
  constructor
  · intro h
    have hclean : cleanedSummaries summaries = [] := by
      unfold cleanedSummaries
      rw [List.filter_eq_nil_iff.mpr ?_]
      · rfl
      · intro a ha
        rw [h a ha]
        decide
    constructor
    · unfold ai_digest
      rw [hclean]
      rfl
    · unfold ai_digest_calls_model
      rw [hclean]
      rfl
  · intro hmem
    have hin : noSignalSentinel ∈ cleanedSummaries summaries := by
      unfold cleanedSummaries
      refine List.mem_map.mpr ⟨noSignalSentinel, List.mem_filter.mpr ⟨hmem, by decide⟩, by decide⟩
    unfold ai_digest_calls_model
    cases hcl : cleanedSummaries summaries with
    | nil => rw [hcl] at hin; simp at hin
    | cons a t => rfl

/-- Witness for C1: an all-empty list short-circuits to the sentinel with
no model call, while a list containing the per-article sentinel does reach
the model call. -/
theorem claim1_witness :
    ai_digest envConstGen ["", ""] = noSignalsDigest ∧
    ai_digest_calls_model ["", ""] = false ∧
    ai_digest_calls_model ["", noSignalSentinel] = true := by
  exact ⟨((claim1_theorem envConstGen ["", ""]).1 (by decide)).1,
         ((claim1_theorem envConstGen ["", ""]).1 (by decide)).2,
         (claim1_theorem envConstGen ["", noSignalSentinel]).2 (by decide)⟩

/-- Counterexample to C1 as stated: on the one-element list holding exactly
the per-article sentinel, `ai_digest` does reach the model call, and with a
model returning `"Hiring rose."` it returns that text rather than the fixed
no-signals sentinel. -/
theorem claim1_counterexample :
    ai_digest_calls_model [noSignalSentinel] = true ∧
    ai_digest envConstGen [noSignalSentinel] = "Hiring rose." ∧
    "Hiring rose." ≠ noSignalsDigest := by
  exact ⟨by decide, by decide, by decide⟩

/-- C10, confirmed.  `request.get_json(force=True, silent=True)` returns
`None` both for an absent body and for one that fails to parse as JSON
(modelled by the `none` body); `or {}` turns that into the empty dict, so
both endpoints answer with their 400 validation response — whose body
carries an `"error"` key — and never with a 500 caused by the malformed
body. -/
theorem claim10_theorem (env : Env) :
    summarize_feeds env none = resp400feeds ∧
    summarize_batch env none = resp400batch ∧
    resp400feeds.status = 400 ∧
    resp400batch.status = 400 ∧
    jLookup resp400feeds.body "error" = some (J.str "Provide feedUrls list") ∧
    jLookup resp400batch.body "error" = some (J.str "Provide a non-empty articles list") := by
  exact ⟨rfl, rfl, rfl, rfl, rfl, rfl⟩

/-! ## Helper lemmas: endpoint validation and failure containment -/

/-- An object payload renders the truthiness check at a payload value. -/
theorem exists_obj_of_jIsObj {v : J} (h : jIsObj v = true) :
    ∃ fs, v = J.obj fs := by
  cases v with
  | obj fs => exact ⟨fs, rfl⟩
  | null => simp [jIsObj] at h
  | bool b => simp [jIsObj] at h
  | num n => simp [jIsObj] at h
  | str s => simp [jIsObj] at h
  | arr xs => simp [jIsObj] at h

/-- On a dict payload, `payload.get(k) or []` never raises. -/
theorem normalizedField_obj_ok (fs : List (String × J)) (k : String) :
    ∃ v, normalizedField (J.obj fs) k = .ok v := ⟨_, rfl⟩

/-- With an object payload whose `feedUrls` does not normalise to a
non-empty list, `/summarize` answers exactly the 400 response, for every
environment — so before any feed fetch or model call can influence it. -/
theorem summarize_feeds_400 (env : Env) (body : Option J)
    (hobj : jIsObj (normalizePayload body) = true)
    (hbad : fieldNonemptyList (normalizePayload body) "feedUrls" = false) :
    summarize_feeds env body = resp400feeds := by
  obtain ⟨fs, hfs⟩ := exists_obj_of_jIsObj hobj
  obtain ⟨v, hv⟩ := normalizedField_obj_ok fs "feedUrls"
  unfold summarize_feeds summarize_feeds_core
  unfold fieldNonemptyList at hbad
  rw [hfs] at hbad ⊢
  rw [hv] at hbad ⊢
  cases v with
  | arr xs =>
    cases xs with
    | nil => rfl
    | cons a as => simp at hbad
  | null => rfl
  | bool b => rfl
  | num n => rfl
  | str s => rfl
  | obj o => rfl

/-- With an object payload whose `articles` does not normalise to a
non-empty list, `/summarize_batch` answers exactly the 400 response, for
every environment. -/
theorem summarize_batch_400 (env : Env) (body : Option J)
    (hobj : jIsObj (normalizePayload body) = true)
    (hbad : fieldNonemptyList (normalizePayload body) "articles" = false) :
    summarize_batch env body = resp400batch := by
  obtain ⟨fs, hfs⟩ := exists_obj_of_jIsObj hobj
  obtain ⟨v, hv⟩ := normalizedField_obj_ok fs "articles"
  unfold summarize_batch summarize_batch_core
  unfold fieldNonemptyList at hbad
  rw [hfs] at hbad ⊢
  rw [hv] at hbad ⊢
  cases v with
  | arr xs =>
    cases xs with
    | nil => rfl
    | cons a as => simp at hbad
  | null => rfl
  | bool b => rfl
  | num n => rfl
  | str s => rfl
  | obj o => rfl

/-- Whenever `feedUrls` normalises to a non-empty list, `/summarize`
returns HTTP 200 — for every environment, in particular whatever feeds
fail and whatever the model does. -/
theorem summarize_feeds_status_200 (env : Env) (body : Option J)
    (hok : fieldNonemptyList (normalizePayload body) "feedUrls" = true) :
    (summarize_feeds env body).status = 200 := by
  unfold fieldNonemptyList at hok
  cases hv : normalizedField (normalizePayload body) "feedUrls" with
  | error e => rw [hv] at hok; simp at hok
  | ok v =>
    rw [hv] at hok
    cases v with
    | arr xs =>
      cases xs with
      | nil => simp at hok
      | cons u us =>
        unfold summarize_feeds summarize_feeds_core
        rw [hv]
        show (feedsOkResponse env (collectFeeds env ⟨[], []⟩ (u :: us))).status = 200
        unfold feedsOkResponse
        split
        · rfl
        · rfl
    | null => simp at hok
    | bool b => simp at hok
    | num n => simp at hok
    | str s => simp at hok
    | obj o => simp at hok

/-- A feed that fails to parse or yields no entries contributes nothing:
removing it from the request leaves the collected articles unchanged. -/
theorem collectFeeds_skip (env : Env) (u : J)
    (hu : env.parseFeed u = none ∨ env.parseFeed u = some []) :
    ∀ (us vs : List J) (st : CollectSt),
      collectFeeds env st (us ++ u :: vs) = collectFeeds env st (us ++ vs) := by
  intro us
  induction us with
  | nil =>
    intro vs st
    show collectFeeds env st (u :: vs) = collectFeeds env st vs
    rcases hu with h | h
    · conv_lhs => rw [collectFeeds, h]
    · conv_lhs => rw [collectFeeds, h]
  | cons w ws ih =>
    intro vs st
    show collectFeeds env st (w :: (ws ++ u :: vs)) = collectFeeds env st (w :: (ws ++ vs))
    unfold collectFeeds
    cases hw : env.parseFeed w with
    | none => exact ih vs st
    | some es =>
      cases es with
      | nil => exact ih vs st
      | cons e es2 => exact ih vs (collectEntries env st (e :: es2))

/-- A batch article that is a dict with a string-valued (or absent)
content chain is processed without raising. -/
theorem batchItem_ok_of_ok (env : Env) (art : J) (h : batchArticleOk art = true) :
    ∃ r, batchItem env art = .ok r := by
  cases art with
  | obj fs =>
    have hok : (match batchField fs "content" "summary" with
        | J.str _ => true
        | _ => false) = true := h
    have hstr : ∃ s, batchContent env fs = J.str s := by
      unfold batchContent
      split
      · exact ⟨_, rfl⟩
      · cases hbf : batchField fs "content" "summary" with
        | str s => exact ⟨s, rfl⟩
        | null => rw [hbf] at hok; simp at hok
        | bool b => rw [hbf] at hok; simp at hok
        | num n => rw [hbf] at hok; simp at hok
        | arr xs => rw [hbf] at hok; simp at hok
        | obj o => rw [hbf] at hok; simp at hok
    obtain ⟨s, hs⟩ := hstr
    have hred : batchItem env (J.obj fs)
        = match batchContent env fs with
          | J.str s =>
            .ok (batchField fs "title" "headline",
                 ai_summary env (jStrOf (batchField fs "title" "headline")) s,
                 batchUrl fs)
          | _ => .error "TypeError" := rfl
    refine ⟨(batchField fs "title" "headline",
             ai_summary env (jStrOf (batchField fs "title" "headline")) s,
             batchUrl fs), ?_⟩
    rw [hred, hs]
  | null => simp [batchArticleOk] at h
  | bool b => simp [batchArticleOk] at h
  | num n => simp [batchArticleOk] at h
  | str s => simp [batchArticleOk] at h
  | arr xs => simp [batchArticleOk] at h

/-- Per-article batch processing succeeds on every raise-free article. -/
theorem batchLoop_ok (env : Env) :
    ∀ (items : List J), allBatchOk items = true → ∃ rs, batchLoop env items = .ok rs := by
  intro items
  induction items with
  | nil => intro _; exact ⟨[], rfl⟩
  | cons a rest ih =>
    intro h
    simp only [allBatchOk, List.all_cons, Bool.and_eq_true] at h
    obtain ⟨rs, hrs⟩ := ih h.2
    obtain ⟨r0, hr0⟩ := batchItem_ok_of_ok env a h.1
    refine ⟨r0 :: rs, ?_⟩
    unfold batchLoop
    rw [hr0, hrs]

/-- The embedding reproduces the source's uncaught `TypeError`: a truthy
non-string `content` (here the number 1) aborts the batch request with
HTTP 500 from the catch-all handler. -/
theorem summarize_batch_500_on_nonstring_content :
    (summarize_batch envConstGen
      (some (J.obj [("articles", J.arr [J.obj [("content", J.num 1)]])]))).status = 500 := by
  decide

/-- Whenever `articles` normalises to a non-empty list of dicts whose
content chains are string-valued, `/summarize_batch` returns HTTP 200 —
for every environment. -/
theorem summarize_batch_200 (env : Env) (body : Option J) (arts : List J)
    (hv : normalizedField (normalizePayload body) "articles" = .ok (J.arr arts))
    (hne : arts ≠ [])
    (hall : allBatchOk (arts.take MAX_ARTICLES) = true) :
    (summarize_batch env body).status = 200 := by
  obtain ⟨a, as, rfl⟩ : ∃ a as, arts = a :: as := by
    cases arts with
    | nil => exact absurd rfl hne
    | cons a as => exact ⟨a, as, rfl⟩
  obtain ⟨rs, hrs⟩ := batchLoop_ok env ((a :: as).take MAX_ARTICLES) hall
  unfold summarize_batch summarize_batch_core
  rw [hv]
  show (match batchOkResponse env (a :: as) with
        | .ok r => r
        | .error msg => resp500 msg).status = 200
  unfold batchOkResponse
  rw [hrs]

/-- C3, amended.  For a request whose payload (after the
`get_json(...) or` empty-dict normalisation) is a JSON object, each
endpoint answers HTTP 400 — with an `"error"` body key — whenever its list
field (`feedUrls` resp. `articles`) is missing, empty or not a list; the
response is a fixed constant independent of the environment, so it is
produced before any fetch or model call.  The amendment restricts the
claim to object payloads: a truthy non-object JSON body (e.g. a non-empty
array) instead raises `AttributeError` at `payload.get` and is turned into
HTTP 500 by the catch-all handler (see the counterexample). -/
theorem claim3_theorem (env : Env) (body : Option J)
    (hobj : jIsObj (normalizePayload body) = true) :
    (fieldNonemptyList (normalizePayload body) "feedUrls" = false →
      summarize_feeds env body = resp400feeds ∧
      resp400feeds.status = 400 ∧
      jLookup resp400feeds.body "error" = some (J.str "Provide feedUrls list")) ∧
    (fieldNonemptyList (normalizePayload body) "articles" = false →
      summarize_batch env body = resp400batch ∧
      resp400batch.status = 400 ∧
      jLookup resp400batch.body "error" = some (J.str "Provide a non-empty articles list")) := by
  constructor
  · intro hbad
    exact ⟨summarize_feeds_400 env body hobj hbad, rfl, rfl⟩
  · intro hbad
    exact ⟨summarize_batch_400 env body hobj hbad, rfl, rfl⟩

/-- Witness for C3: a payload whose `feedUrls` is a (truthy) string and
whose `articles` field is absent receives the 400 responses. -/
theorem claim3_witness :
    summarize_feeds envConstGen (some (J.obj [("feedUrls", J.str "x")])) = resp400feeds ∧
    summarize_batch envConstGen (some (J.obj [("feedUrls", J.str "x")])) = resp400batch := by
  have h := claim3_theorem envConstGen (some (J.obj [("feedUrls", J.str "x")])) (by decide)
  exact ⟨(h.1 (by decide)).1, (h.2 (by decide)).1⟩

/-- Counterexample to C3 as stated: the JSON-array body `[1]` has no
`feedUrls` field, yet `/summarize` answers 500 (the `AttributeError` from
`payload.get` reaches the catch-all handler), not 400. -/
theorem claim3_counterexample :
    (summarize_feeds envConstGen (some (J.arr [J.num 1]))).status = 500 ∧
    jLookup (J.arr [J.num 1]) "feedUrls" = none := by
  exact ⟨by decide, rfl⟩

/-- C9, confirmed.  A structurally valid `/summarize` request (its
`feedUrls` normalises to a non-empty list) always returns HTTP 200, for
every environment — in particular whatever feeds fail to parse; and a feed
that fails to parse or yields no entries contributes nothing to the
collected articles, wherever it sits in the request. -/
theorem claim9_theorem (env : Env) :
    (∀ body : Option J,
      fieldNonemptyList (normalizePayload body) "feedUrls" = true →
      (summarize_feeds env body).status = 200) ∧
    (∀ u : J, (env.parseFeed u = none ∨ env.parseFeed u = some []) →
      ∀ (us vs : List J) (st : CollectSt),
        collectFeeds env st (us ++ u :: vs) = collectFeeds env st (us ++ vs)) := by
  exact ⟨fun body h => summarize_feeds_status_200 env body h,
         fun u hu => collectFeeds_skip env u hu⟩

/-- Witness for C9: with an environment in which every feed fails to parse,
a one-feed request still returns HTTP 200, and dropping a failing feed
leaves the collection unchanged. -/
theorem claim9_witness :
    (summarize_feeds envConstGen (some bodyOneFeed)).status = 200 ∧
    collectFeeds envConstGen ⟨[], []⟩ ([] ++ J.str "bad" :: [J.str "a"])
      = collectFeeds envConstGen ⟨[], []⟩ ([] ++ [J.str "a"]) := by
  have h := claim9_theorem envConstGen
  exact ⟨h.1 (some bodyOneFeed) (by decide),
         h.2 (J.str "bad") (Or.inl rfl) [] [J.str "a"] ⟨[], []⟩⟩

/-! ## Helper lemmas: the collection cap and content precedence -/

/-- The inner entry loop never grows `articles` past `MAX_ARTICLES`. -/
theorem collectEntries_length_le (env : Env) :
    ∀ (es : List Entry) (st : CollectSt), st.articles.length ≤ MAX_ARTICLES →
      (collectEntries env st es).articles.length ≤ MAX_ARTICLES := by
  intro es
  induction es with
  | nil => intro st h; exact h
  | cons e rest ih =>
    intro st h
    unfold collectEntries
    by_cases hcap : MAX_ARTICLES ≤ st.articles.length
    · rw [if_pos hcap]; exact h
    · rw [if_neg hcap]
      by_cases hk : entryKey e = "" ∨ entryKey e ∈ st.seen
      · rw [if_pos hk]; exact ih st h
      · rw [if_neg hk]
        apply ih
        show (st.articles ++ [mkArticle env e]).length ≤ MAX_ARTICLES
        rw [List.length_append]
        simp only [List.length_cons, List.length_nil]
        omega

/-- C6, amended.  The only cap `summarize_feeds` enforces is the global
`MAX_ARTICLES` (default 40) on the total number of collected (and hence
summarized) entries.  There is no per-feed entry cap and no bound on the
number of feeds processed (see the counterexample). -/
theorem claim6_theorem (env : Env) (urls : List J) :
    (collectFeeds env ⟨[], []⟩ urls).articles.length ≤ MAX_ARTICLES := by
  have hgen : ∀ (us : List J) (st : CollectSt), st.articles.length ≤ MAX_ARTICLES →
      (collectFeeds env st us).articles.length ≤ MAX_ARTICLES := by
    intro us
    induction us with
    | nil => intro st h; exact h
    | cons u rest ih =>
      intro st h
      unfold collectFeeds
      cases hu : env.parseFeed u with
      | none => exact ih st h
      | some es =>
        cases es with
        | nil => exact ih st h
        | cons e es2 => exact ih _ (collectEntries_length_le env (e :: es2) st h)
  exact hgen urls ⟨[], []⟩ (by simp)

/-- Counterexample to C6 as stated: a single feed with eleven entries
contributes all eleven articles — more than any per-feed cap of about five
the claim asserts; only the global cap of 40 exists. -/
theorem claim6_counterexample :
    (collectFeeds env11 ⟨[], []⟩ [J.str "u"]).articles.length = 11 ∧
    env11.parseFeed (J.str "u") = some entries11 ∧
    entries11.length = 11 := by
  exact ⟨by decide, rfl, by decide⟩

/-- When the entry carries no usable content list, the body falls through
to the summary/fetch/empty chain. -/
theorem entryContent_fallback (env : Env) (url : String) (e : Entry)
    (hc : e.content = none ∨ e.content = some []) :
    entryContent env url e
      = (if e.summary ≠ "" then e.summary
         else if url ≠ "" then fetch_article_text env url else "") := by
  unfold entryContent
  rcases hc with h | h <;> rw [h]

/-- C7, amended.  The body text for a feed entry is chosen with the
precedence: first element of a non-empty `content` list, else a non-empty
`summary` field, else the fetched page text when the entry URL is
non-empty, else the empty string.  The `description` field is never
consulted (see the counterexample), and the last fallback before empty is
a page fetch, not the description. -/
theorem claim7_theorem (env : Env) (e : Entry) :
    (∀ v vs, e.content = some (v :: vs) → (mkArticle env e).content = v) ∧
    ((e.content = none ∨ e.content = some []) → e.summary ≠ "" →
      (mkArticle env e).content = e.summary) ∧
    ((e.content = none ∨ e.content = some []) → e.summary = "" → entryUrl e ≠ "" →
      (mkArticle env e).content = fetch_article_text env (entryUrl e)) ∧
    ((e.content = none ∨ e.content = some []) → e.summary = "" → entryUrl e = "" →
      (mkArticle env e).content = "") := by
  refine ⟨?_, ?_, ?_, ?_⟩
  · intro v vs hcnt
    show entryContent env (entryUrl e) e = v
    unfold entryContent
    rw [hcnt]
  · intro hc hs
    show entryContent env (entryUrl e) e = e.summary
    rw [entryContent_fallback env (entryUrl e) e hc, if_pos hs]
  · intro hc hs hu
    show entryContent env (entryUrl e) e = fetch_article_text env (entryUrl e)
    rw [entryContent_fallback env (entryUrl e) e hc]
    rw [if_neg (by simpa using hs), if_pos hu]
  · intro hc hs hu
    show entryContent env (entryUrl e) e = ""
    rw [entryContent_fallback env (entryUrl e) e hc]
    rw [if_neg (by simpa using hs), if_neg (by simpa using hu)]

/-- Witness for C7: the precedence cases evaluated on concrete entries. -/
theorem claim7_witness :
    (mkArticle envConstGen { content := some ["C"], summary := "S" : Entry }).content = "C" ∧
    (mkArticle envConstGen { summary := "S" : Entry }).content = "S" ∧
    (mkArticle envConstGen { title := "t" : Entry }).content = "" := by
  have h1 := (claim7_theorem envConstGen { content := some ["C"], summary := "S" : Entry }).1
  have h2 := (claim7_theorem envConstGen { summary := "S" : Entry }).2.1
  have h3 := (claim7_theorem envConstGen { title := "t" : Entry }).2.2.2
  exact ⟨h1 "C" [] rfl, h2 (Or.inl rfl) (by decide), h3 (Or.inl rfl) rfl rfl⟩

/-- Counterexample to C7 as stated: an entry carrying only a `description`
(and a title) yields an empty body — the description is never used as the
third fallback. -/
theorem claim7_counterexample :
    eDescOnly.description = "D" ∧
    eDescOnly.content = none ∧
    eDescOnly.summary = "" ∧
    (collectFeeds envDescOnly ⟨[], []⟩ [J.str "u"]).articles
      = [{ title := "t", content := "", url := "" }] := by
  exact ⟨rfl, rfl, rfl, by decide⟩

/-! ## Helper lemmas: deduplication in the collection loop -/

/-- Once the cap is reached, the entry loop changes nothing. -/
theorem collectEntries_capped (env : Env) (st : CollectSt) (l : List Entry)
    (h : MAX_ARTICLES ≤ st.articles.length) : collectEntries env st l = st := by
  cases l with
  | nil => rfl
  | cons e rest =>
    unfold collectEntries
    rw [if_pos h]

/-- One unfolding step of the entry loop on a cons cell. -/
theorem collectEntries_cons (env : Env) (st : CollectSt) (e : Entry) (rest : List Entry) :
    collectEntries env st (e :: rest)
      = if MAX_ARTICLES ≤ st.articles.length then st
        else if entryKey e = "" ∨ entryKey e ∈ st.seen then collectEntries env st rest
        else collectEntries env
          { seen := entryKey e :: st.seen, articles := st.articles ++ [mkArticle env e] }
          rest := rfl

/-- The entry loop processes a concatenation as two successive runs (the
cap state is absorbing, so the break behaves like skipping the rest). -/
theorem collectEntries_append (env : Env) (xs ys : List Entry) :
    ∀ st, collectEntries env st (xs ++ ys)
      = collectEntries env (collectEntries env st xs) ys := by
  induction xs with
  | nil => intro st; rfl
  | cons e xs ih =>
    intro st
    show collectEntries env st (e :: (xs ++ ys)) = _
    rw [collectEntries_cons env st e (xs ++ ys), collectEntries_cons env st e xs]
    by_cases hcap : MAX_ARTICLES ≤ st.articles.length
    · rw [if_pos hcap, if_pos hcap]
      exact (collectEntries_capped env st ys hcap).symm
    · rw [if_neg hcap, if_neg hcap]
      by_cases hk : entryKey e = "" ∨ entryKey e ∈ st.seen
      · rw [if_pos hk, if_pos hk]; exact ih st
      · rw [if_neg hk, if_neg hk]; exact ih _

/-- The feed loop equals the entry loop over the flattened entry stream. -/
theorem collectFeeds_eq_entries (env : Env) :
    ∀ (urls : List J) (st : CollectSt),
      collectFeeds env st urls = collectEntries env st (processedEntries env urls) := by
  intro urls
  induction urls with
  | nil => intro st; rfl
  | cons u rest ih =>
    intro st
    have hpe : processedEntries env (u :: rest)
        = ((env.parseFeed u).getD []) ++ processedEntries env rest := by
      unfold processedEntries
      rw [List.flatMap_cons]
    rw [hpe, collectEntries_append]
    cases hu : env.parseFeed u with
    | none =>
      conv_lhs => rw [collectFeeds, hu]
      exact ih st
    | some es =>
      cases es with
      | nil =>
        conv_lhs => rw [collectFeeds, hu]
        exact ih st
      | cons e es2 =>
        conv_lhs => rw [collectFeeds, hu]
        exact ih (collectEntries env st (e :: es2))

/-- The article built from an entry carries the entry's dedup key. -/
theorem articleKey_mkArticle (env : Env) (e : Entry) :
    articleKey (mkArticle env e) = entryKey e := rfl

/-- The entry loop preserves the key invariant: collected keys are recorded
in `seen` and pairwise distinct. -/
theorem collectEntries_good (env : Env) :
    ∀ (es : List Entry) (st : CollectSt), GoodSt st → GoodSt (collectEntries env st es) := by
  intro es
  induction es with
  | nil => intro st h; exact h
  | cons e rest ih =>
    intro st h
    unfold collectEntries
    by_cases hcap : MAX_ARTICLES ≤ st.articles.length
    · rw [if_pos hcap]; exact h
    · rw [if_neg hcap]
      by_cases hk : entryKey e = "" ∨ entryKey e ∈ st.seen
      · rw [if_pos hk]; exact ih st h
      · rw [if_neg hk]
        apply ih
        push_neg at hk
        obtain ⟨hk1, hk2⟩ := hk
        obtain ⟨hsync, hnd⟩ := h
        constructor
        · intro a ha
          rw [List.mem_append] at ha
          rcases ha with ha | ha
          · exact List.mem_cons_of_mem _ (hsync a ha)
          · rw [List.mem_singleton] at ha
            subst ha
            rw [articleKey_mkArticle]
            exact List.mem_cons_self _ _
        · show ((st.articles ++ [mkArticle env e]).map articleKey).Nodup
          rw [List.map_append, List.nodup_append]
          refine ⟨hnd, by simp, ?_⟩
          rw [show List.map articleKey [mkArticle env e] = [entryKey e] by
            simp [articleKey_mkArticle]]
          rw [List.disjoint_singleton]
          intro hmem
          rcases List.mem_map.mp hmem with ⟨a, hain, hkey⟩
          exact hk2 (hkey ▸ hsync a hain)

/-- If the stripped target key is absent from the collected keys, no
collected article carries the target url. -/
theorem count_url_eq_zero_of_key_not_mem (arts : List Article) (L : String)
    (hL : L ≠ "") (h : pyStrip L ∉ arts.map articleKey) :
    (arts.map Article.url).count L = 0 := by
  rw [List.count_eq_zero]
  intro hmem
  rcases List.mem_map.mp hmem with ⟨a, hain, hurl⟩
  apply h
  refine List.mem_map.mpr ⟨a, hain, ?_⟩
  unfold articleKey
  rw [hurl, show pyOr L a.title = L from if_neg hL]

/-- Distinct collected keys bound each non-empty url to at most one
occurrence. -/
theorem count_url_le_one (arts : List Article) (L : String) (hL : L ≠ "")
    (hnd : (arts.map articleKey).Nodup) :
    (arts.map Article.url).count L ≤ 1 := by
  induction arts with
  | nil => simp
  | cons a rest ih =>
    rw [List.map_cons] at hnd ⊢
    rw [List.count_cons]
    have hnd2 : (rest.map articleKey).Nodup := (List.nodup_cons.mp hnd).2
    by_cases hau : a.url = L
    · have hkey : articleKey a = pyStrip L := by
        unfold articleKey
        rw [hau, show pyOr L a.title = L from if_neg hL]
      have hnotin : pyStrip L ∉ rest.map articleKey := by
        intro hm
        rw [← hkey] at hm
        exact (List.nodup_cons.mp hnd).1 hm
      rw [count_url_eq_zero_of_key_not_mem rest L hL hnotin]
      simp [hau]
    · have : (a.url == L) = false := by
        simp [hau]
      rw [this]
      simpa using ih hnd2

/-- The entry loop only appends to the article list. -/
theorem collectEntries_articles_mono (env : Env) :
    ∀ (es : List Entry) (st : CollectSt),
      ∃ t, (collectEntries env st es).articles = st.articles ++ t := by
  intro es
  induction es with
  | nil => intro st; exact ⟨[], by show st.articles = st.articles ++ []; simp⟩
  | cons e rest ih =>
    intro st
    rw [collectEntries_cons]
    by_cases hcap : MAX_ARTICLES ≤ st.articles.length
    · rw [if_pos hcap]; exact ⟨[], by simp⟩
    · rw [if_neg hcap]
      by_cases hk : entryKey e = "" ∨ entryKey e ∈ st.seen
      · rw [if_pos hk]; exact ih st
      · rw [if_neg hk]
        obtain ⟨t, ht⟩ := ih
          { seen := entryKey e :: st.seen, articles := st.articles ++ [mkArticle env e] }
        exact ⟨mkArticle env e :: t, by rw [ht]; simp⟩

/-- Reaching the first entry whose key is the target, before the cap and
with the key unseen, collects exactly that entry's article. -/
theorem collectEntries_first_hit (env : Env) (L : String) (hL : pyStrip L ≠ "")
    (e : Entry) (he : entryUrl e = L) :
    ∀ (pre post : List Entry) (st : CollectSt),
      (∀ x ∈ pre, entryKey x ≠ pyStrip L) →
      pyStrip L ∉ st.seen →
      st.articles.length + pre.length < MAX_ARTICLES →
      mkArticle env e ∈ (collectEntries env st (pre ++ e :: post)).articles := by
  have hLne : L ≠ "" := fun h => hL (by rw [h]; decide)
  have hkey : entryKey e = pyStrip L := by
    unfold entryKey
    rw [he, show pyOr L (entryTitle e) = L from if_neg hLne]
  intro pre
  induction pre with
  | nil =>
    intro post st hpre hseen hlen
    simp only [List.length_nil, Nat.add_zero] at hlen
    show mkArticle env e ∈ (collectEntries env st (e :: post)).articles
    unfold collectEntries
    rw [if_neg (by omega : ¬ MAX_ARTICLES ≤ st.articles.length)]
    rw [if_neg (by
      push_neg
      exact ⟨by rw [hkey]; exact hL, by rw [hkey]; exact hseen⟩)]
    obtain ⟨t, ht⟩ := collectEntries_articles_mono env post
      { seen := entryKey e :: st.seen, articles := st.articles ++ [mkArticle env e] }
    rw [ht]
    show mkArticle env e ∈ (st.articles ++ [mkArticle env e]) ++ t
    simp
  | cons x pre ih =>
    intro post st hpre hseen hlen
    simp only [List.length_cons] at hlen
    show mkArticle env e ∈ (collectEntries env st (x :: (pre ++ e :: post))).articles
    unfold collectEntries
    rw [if_neg (by omega : ¬ MAX_ARTICLES ≤ st.articles.length)]
    by_cases hk : entryKey x = "" ∨ entryKey x ∈ st.seen
    · rw [if_pos hk]
      exact ih post st (fun y hy => hpre y (List.mem_cons_of_mem x hy)) hseen (by omega)
    · rw [if_neg hk]
      refine ih post _ (fun y hy => hpre y (List.mem_cons_of_mem x hy)) ?_ ?_
      · intro hm
        rcases List.mem_cons.mp hm with hm1 | hm2
        · exact hpre x (List.mem_cons_self x pre) hm1.symm
        · exact hseen hm2
      · show (st.articles ++ [mkArticle env x]).length + pre.length < MAX_ARTICLES
        rw [List.length_append]
        simp only [List.length_cons, List.length_nil]
        omega

/-- C2, amended.  For every request and every link `L` whose stripped form
is non-empty, the collected articles carry `L` as their url at most once;
and exactly once — keeping the first occurrence in processing order (feeds
in request order, entries in feed order) — provided no earlier processed
entry shares `L`'s dedup key and the request's entries fit within the
`MAX_ARTICLES` cap.  (Without those provisos the link can be dropped
entirely: a link that strips to the empty key is skipped, and occurrences
past the cap are cut — see the counterexample.) -/
theorem claim2_theorem (env : Env) (urls : List J) (L : String)
    (hL : pyStrip L ≠ "") :
    ((collectFeeds env ⟨[], []⟩ urls).articles.map Article.url).count L ≤ 1 ∧
    (∀ (pre : List Entry) (e : Entry) (post : List Entry),
      processedEntries env urls = pre ++ e :: post →
      entryUrl e = L →
      (∀ x ∈ pre, entryKey x ≠ pyStrip L) →
      (processedEntries env urls).length ≤ MAX_ARTICLES →
      mkArticle env e ∈ (collectFeeds env ⟨[], []⟩ urls).articles ∧
      ((collectFeeds env ⟨[], []⟩ urls).articles.map Article.url).count L = 1) := by
  have hLne : L ≠ "" := fun h => hL (by rw [h]; decide)
  have hgood : GoodSt (collectFeeds env ⟨[], []⟩ urls) := by
    rw [collectFeeds_eq_entries]
    exact collectEntries_good env _ ⟨[], []⟩ ⟨by intro a ha; simp at ha, by simp⟩
  have hle : ((collectFeeds env ⟨[], []⟩ urls).articles.map Article.url).count L ≤ 1 :=
    count_url_le_one _ L hLne hgood.2
  refine ⟨hle, ?_⟩
  intro pre e post hsplit he hpre hlen
  have hmem : mkArticle env e ∈ (collectFeeds env ⟨[], []⟩ urls).articles := by
    rw [collectFeeds_eq_entries, hsplit]
    refine collectEntries_first_hit env L hL e he pre post ⟨[], []⟩ hpre (by simp) ?_
    rw [hsplit, List.length_append] at hlen
    simp only [List.length_cons] at hlen
    show 0 + pre.length < MAX_ARTICLES
    omega
  refine ⟨hmem, ?_⟩
  have hge : 0 < ((collectFeeds env ⟨[], []⟩ urls).articles.map Article.url).count L := by
    apply List.count_pos_iff.mpr
    exact List.mem_map.mpr ⟨mkArticle env e, hmem, he⟩
  omega

/-- Witness for C2: two entries with the same link `"x"` in one feed — the
result keeps the first occurrence's article, and the link appears exactly
once. -/
theorem claim2_witness :
    ((collectFeeds envDupX ⟨[], []⟩ [J.str "u"]).articles.map Article.url).count "x" = 1 ∧
    mkArticle envDupX eX1 ∈ (collectFeeds envDupX ⟨[], []⟩ [J.str "u"]).articles := by
  have h := (claim2_theorem envDupX [J.str "u"] "x" (by decide)).2 [] eX1 [eX2]
    (by decide) (by decide) (by intro x hx; simp at hx) (by decide)
  exact ⟨h.2, h.1⟩

/-- Counterexample to C2 as stated: two entries share the link `" "`
(one space).  Its dedup key strips to the empty string, so both entries
are skipped and the returned summaries list contains that link zero
times, not exactly once. -/
theorem claim2_counterexample :
    eBlankLink.link = " " ∧
    envDupBlank.parseFeed (J.str "u") = some [eBlankLink, eBlankLink] ∧
    summaryUrlCount (summarize_feeds envDupBlank (some bodyOneFeed)) " " = some 0 ∧
    (summarize_feeds envDupBlank (some bodyOneFeed)).status = 200 := by
  exact ⟨rfl, rfl, by decide, by decide⟩

/-! ## Helper lemmas: error-tagged summaries -/

/-- A raised model call surfaces as the inline error string. -/
theorem call_generate_error (env : Env) (prompt emsg : String)
    (h : env.gen prompt = .error emsg) :
    call_generate env prompt = "[model error: " ++ emsg ++ "]" := by
  unfold call_generate
  rw [h]

/-- The inline error string is non-empty. -/
theorem modelError_ne_empty (x : String) : "[model error: " ++ x ++ "]" ≠ "" := by
  apply string_ne_empty_of_data
  rw [String.data_append]
  simp

/-- Stripping the inline error string changes nothing: it starts with `[`
and ends with `]`. -/
theorem strip_modelError (x : String) :
    pyStrip ("[model error: " ++ x ++ "]") = "[model error: " ++ x ++ "]" := by
  apply String.ext
  show stripChars ("[model error: " ++ x ++ "]").data = ("[model error: " ++ x ++ "]").data
  apply stripChars_eq_self
  · intro c hc
    rw [show ("[model error: " ++ x ++ "]").data
        = '[' :: ("model error: ".data ++ (x.data ++ [']'])) from rfl] at hc
    simp only [List.head?_cons, Option.mem_def, Option.some.injEq] at hc
    subst hc
    decide
  · intro c hc
    rw [show ("[model error: " ++ x ++ "]").data
        = ("[model error: ".data ++ x.data) ++ [']'] from rfl] at hc
    rw [List.getLast?_concat] at hc
    simp only [Option.mem_def, Option.some.injEq] at hc
    subst hc
    decide

/-- The newline replacement distributes over string concatenation. -/
theorem replaceNl_append (x y : String) :
    replaceNl (x ++ y) = replaceNl x ++ replaceNl y := by
  apply String.ext
  show (x ++ y).data.map (fun c => if c = '\n' then ' ' else c)
      = (replaceNl x ++ replaceNl y).data
  rw [String.data_append, List.map_append, String.data_append]
  rfl

/-- With a raised model call, the post-processed model text is exactly the
inline error string (with its own newlines collapsed). -/
theorem modelTextFor_error (env : Env) (title content emsg : String)
    (h : env.gen (articlePromptFor env title content) = .error emsg) :
    modelTextFor env title content = "[model error: " ++ replaceNl emsg ++ "]" := by
  unfold modelTextFor
  rw [call_generate_error env _ emsg h]
  rw [strip_modelError emsg]
  rw [replaceNl_append, replaceNl_append]
  rw [show replaceNl "[model error: " = "[model error: " by decide]
  rw [show replaceNl "]" = "]" by decide]
  rw [strip_modelError (replaceNl emsg)]

/-- A non-whitespace-fronted, non-whitespace-backed prefix survives
stripping of any extension. -/
theorem pre_prefix_stripChars (a : Char) (t suf : List Char)
    (ha : isPySpace a = false)
    (hlast : ∀ c ∈ (a :: t).getLast?, isPySpace c = false) :
    (a :: t) <+: stripChars ((a :: t) ++ suf) := by
  unfold stripChars
  rw [dropWhile_eq_self_of_head isPySpace ((a :: t) ++ suf) (by
    intro c hc
    rw [List.cons_append] at hc
    simp only [List.head?_cons, Option.mem_def, Option.some.injEq] at hc
    subst hc
    exact ha)]
  rw [List.reverse_append]
  rw [List.dropWhile_append]
  by_cases hemp : (suf.reverse.dropWhile isPySpace).isEmpty
  · rw [if_pos hemp]
    rw [dropWhile_eq_self_of_head isPySpace (a :: t).reverse (by
      intro c hc
      rw [List.head?_reverse] at hc
      exact hlast c hc)]
    rw [List.reverse_reverse]
  · rw [if_neg hemp]
    rw [List.reverse_append, List.reverse_reverse]
    exact ⟨_, rfl⟩

/-- Applied to the inline error string, `first_sentence` keeps the
`"[model error:"` prefix. -/
theorem first_sentence_modelError (x : String) :
    "[model error:".data <+: (first_sentence ("[model error: " ++ x ++ "]")).data := by
  have hne : ("[model error: " ++ x ++ "]") ≠ "" := modelError_ne_empty x
  have hdata : ("[model error: " ++ x ++ "]").data
      = "[model error: ".data ++ (x.data ++ [']']) := by
    rw [String.data_append, String.data_append]
    rw [show ("]" : String).data = [']'] by decide]
    rw [List.append_assoc]
  have htk : ("[model error: " ++ x ++ "]").data.takeWhile (fun c => !isSentSplit c)
      = "[model error: ".data ++ (x.data ++ [']']).takeWhile (fun c => !isSentSplit c) := by
    rw [hdata, List.takeWhile_append]
    rw [show ("[model error: ".data.takeWhile (fun c => !isSentSplit c))
          = "[model error: ".data by decide]
    rw [if_pos rfl]
  have hpre : "[model error:".data
      <+: (firstFragment ("[model error: " ++ x ++ "]")).data := by
    show "[model error:".data <+: stripChars
      (("[model error: " ++ x ++ "]").data.takeWhile (fun c => !isSentSplit c))
    rw [htk]
    rw [show ("[model error: " : String).data = "[model error:".data ++ [' '] by decide]
    rw [List.append_assoc]
    rw [show ("[model error:" : String).data = '[' :: "model error:".data by decide]
    exact pre_prefix_stripChars '[' "model error:".data _ (by decide) (by decide)
  have hlen13 : 13 ≤ (firstFragment ("[model error: " ++ x ++ "]")).length := by
    calc 13 = "[model error:".data.length := by decide
    _ ≤ (firstFragment ("[model error: " ++ x ++ "]")).data.length := hpre.length_le
  have hcond : ¬((firstFragment ("[model error: " ++ x ++ "]")).length < 10
      ∧ 0 < ("[model error: " ++ x ++ "]").length) := by
    intro hand
    have h1 := hand.1
    omega
  have hfc : firstChoice ("[model error: " ++ x ++ "]")
      = firstFragment ("[model error: " ++ x ++ "]") := by
    unfold firstChoice
    rw [if_neg hcond]
  have hfcne : firstChoice ("[model error: " ++ x ++ "]") ≠ "" := by
    rw [hfc]
    apply string_ne_empty_of_data
    intro hd
    rw [show (firstFragment ("[model error: " ++ x ++ "]")).length
        = (firstFragment ("[model error: " ++ x ++ "]")).data.length from rfl, hd] at hlen13
    simp at hlen13
  have hr : pyRStrip (firstFragment ("[model error: " ++ x ++ "]"))
      = firstFragment ("[model error: " ++ x ++ "]") := by
    unfold firstFragment
    exact pyRStrip_pyStrip _
  unfold first_sentence
  rw [if_neg hne, if_neg hfcne, hfc, hr]
  rw [String.data_append]
  exact hpre.trans (List.prefix_append _ _)

set_option maxHeartbeats 2000000 in
/-- With a raised model call, `ai_summary`'s result lowercases to a string
starting with the `"[model error:"` tag. -/
theorem ai_summary_error_tagged (env : Env) (title content emsg : String)
    (h : env.gen (articlePromptFor env title content) = .error emsg) :
    pyStartsWith (pyLower (ai_summary env title content)) "[model error:" = true := by
  have hmt := modelTextFor_error env title content emsg h
  have hne : modelTextFor env title content ≠ "" := by
    rw [hmt]
    exact modelError_ne_empty _
  have hai : ai_summary env title content
      = first_sentence (modelTextFor env title content) := by
    unfold ai_summary
    rw [if_neg hne]
  rw [hai, hmt]
  unfold pyStartsWith
  rw [ List.isPrefixOf_iff_prefix]
  obtain ⟨t0, ht0⟩ := first_sentence_modelError (replaceNl emsg)
  show "[model error:".data
      <+: (first_sentence ("[model error: " ++ replaceNl emsg ++ "]")).data.map lowerChar
  rw [← ht0, List.map_append]
  rw [show "[model error:".data.map lowerChar = "[model error:".data by decide]
  exact ⟨_, rfl⟩

/-- An error-tagged string never enters the digest aggregation input. -/
theorem cleaned_excludes_error (s : String) (ss : List String)
    (h : pyStartsWith (pyLower s) "[model error:" = true) :
    cleanedSummaries (s :: ss) = cleanedSummaries ss := by
  unfold cleanedSummaries
  rw [List.filter_cons]
  rw [show (decide ¬(s = "") && !pyStartsWith (pyLower s) "[model error:") = false by
    rw [h]; simp]
  simp

/-- C8, amended.  A raised per-article model call is represented inline as
an error-tagged summary (its lowercase form starts with `"[model error:"`);
error-tagged strings are excluded from the digest aggregation input; and no
model behaviour aborts a structurally valid `/summarize` or
`/summarize_batch` request — both return HTTP 200 for every environment.
Unlike the original claim, the empty-output sentinel is NOT excluded from
the digest aggregation input (see the counterexample): only empty and
error-tagged strings are filtered. -/
theorem claim8_theorem (env : Env) :
    (∀ title content emsg : String,
      env.gen (articlePromptFor env title content) = .error emsg →
      pyStartsWith (pyLower (ai_summary env title content)) "[model error:" = true) ∧
    (∀ (s : String) (ss : List String),
      pyStartsWith (pyLower s) "[model error:" = true →
      cleanedSummaries (s :: ss) = cleanedSummaries ss) ∧
    (∀ (body : Option J) (arts : List J),
      normalizedField (normalizePayload body) "articles" = .ok (J.arr arts) →
      arts ≠ [] → allBatchOk (arts.take MAX_ARTICLES) = true →
      (summarize_batch env body).status = 200) ∧
    (∀ body : Option J,
      fieldNonemptyList (normalizePayload body) "feedUrls" = true →
      (summarize_feeds env body).status = 200) := by
  refine ⟨?_, ?_, ?_, ?_⟩
  · intro title content emsg h
    exact ai_summary_error_tagged env title content emsg h
  · intro s ss h
    exact cleaned_excludes_error s ss h
  · intro body arts hv hne hall
    exact summarize_batch_200 env body arts hv hne hall
  · intro body h
    exact summarize_feeds_status_200 env body h

/-- Witness for C8: a model that always raises yields an error-tagged
summary, the tag is filtered from the digest input, and concrete valid
requests still answer 200 (with that always-raising model). -/
theorem claim8_witness :
    pyStartsWith (pyLower (ai_summary envIdText "t" "c")) "[model error:" = true ∧
    cleanedSummaries ["[model error: boom].", "hi"] = cleanedSummaries ["hi"] ∧
    (summarize_batch envIdText
      (some (J.obj [("articles", J.arr [J.obj [("title", J.str "t")]])]))).status = 200 ∧
    (summarize_feeds envIdText (some bodyOneFeed)).status = 200 := by
  have h := claim8_theorem envIdText
  exact ⟨h.1 "t" "c" "unavailable" rfl,
         h.2.1 "[model error: boom]." ["hi"] (by decide),
         h.2.2.1 (some (J.obj [("articles", J.arr [J.obj [("title", J.str "t")]])]))
           [J.obj [("title", J.str "t")]] rfl (by simp) (by decide),
         h.2.2.2 (some bodyOneFeed) (by decide)⟩

/-- Counterexample to C8 as stated: an empty model output yields the
sentinel summary, and the sentinel is kept in — not excluded from — the
digest aggregation input. -/
theorem claim8_counterexample :
    ai_summary envEmptyGen "t" "c" = noSignalSentinel ∧
    cleanedSummaries [ai_summary envEmptyGen "t" "c"] = [noSignalSentinel] := by
  exact ⟨by decide, by decide⟩
